import Mathlib

/-!
Verification of the request-orchestration engine of `jarcos_node_network`
(an outbound HTTP client with deduplication, caching, retry/backoff and
credential refresh).  Each component is shallowly embedded from the
TypeScript source: pure functions become Lean functions, stateful classes
become explicit state-passing functions, promises become identifiers or
their eventual outcomes, and `async` control flow is modelled at the
cooperative suspension points of the source.
-/

namespace Js

/-- A JSON-like scalar value, as used for request bodies and query-parameter
values.  Query-parameter maps are modelled as insertion-ordered association
lists (`List (String × JVal)`), matching the enumeration order of JavaScript
object keys that `JSON.stringify` and `Object.keys` observe. -/
inductive JVal where
  | jstr (s : String)
  | jnum (n : Int)
  deriving DecidableEq, Repr

/-- JavaScript truthiness of a `JVal` (empty string and zero are falsy). -/
def jsTruthy : JVal → Bool
  | .jstr s => s ≠ ""
  | .jnum n => n ≠ 0

/-- Model of `JSON.stringify` of a scalar value. -/
def stringifyVal : JVal → String
  | .jstr s => "\"" ++ s ++ "\""
  | .jnum n => toString n

/-- Model of `JSON.stringify` of an object: fields are serialized in insertion order. -/
def stringifyObj (fields : List (String × JVal)) : String :=
  "\x7b" ++ String.intercalate ","
    (fields.map (fun kv => "\"" ++ kv.1 ++ "\":" ++ stringifyVal kv.2)) ++ "\x7d"

/-- Template-literal rendering `${v}` of a scalar value. -/
def templateVal : JVal → String
  | .jstr s => s
  | .jnum n => toString n

/-- Model of `method.toUpperCase()`, as a map over the character list. -/
def jsToUpper (s : String) : String :=
  String.mk (s.data.map Char.toUpper)

/-- Model of `url.trim()`: strip leading and trailing whitespace, as a transformation
of the character list. -/
def jsTrim (s : String) : String :=
  String.mk
    (((s.data.dropWhile Char.isWhitespace).reverse.dropWhile
      Char.isWhitespace).reverse)

/-- Lookup in an insertion-ordered association list (first match wins),
modelling `Map.prototype.get` and `params[key]`. -/
def alistLookup {α : Type} (l : List (String × α)) (k : String) : Option α :=
  match l with
  | [] => none
  | p :: rest => if p.1 = k then some p.2 else alistLookup rest k

end Js

namespace Dedup

open Js

/-- Model of `DeduplicationManager.defaultKeyGenerator` (src/unnamed/part_008, lines
32–40): `METHOD:url:JSON.stringify(params):JSON.stringify(data)`, with the empty
string for an absent (or falsy) `params`/`data`. -/
def defaultKeyGenerator (method url : String) (data : Option JVal)
    (params : Option (List (String × JVal))) : String :=
  let baseKey := jsToUpper method ++ ":" ++ url
  let paramsString := match params with
    | some p => stringifyObj p
    | none => ""
  let dataString := match data with
    | some d => if jsTruthy d then stringifyVal d else ""
    | none => ""
  baseKey ++ ":" ++ paramsString ++ ":" ++ dataString

/-- The key-generator signature of `DeduplicationConfig.keyGenerator`. -/
def KeyGen : Type :=
  String → String → Option JVal → Option (List (String × JVal)) → String

/-- State of a `DeduplicationManager`: the pending-requests table maps a key to
the promise (identified by a `Nat`) shared by all collapsed callers; `nextId`
supplies fresh promise identities; the statistics counters mirror
`DeduplicationStats`. -/
structure State where
  enabled : Bool
  pending : List (String × Nat)
  nextId : Nat
  totalRequests : Nat
  deduplicatedRequests : Nat
  activeRequests : Nat
  deriving Repr, DecidableEq

/-- Result of one `executeRequest` call: the promise returned to the caller and
whether the supplied `requestExecutor` was invoked by this call. -/
structure CallResult where
  promise : Nat
  executorInvoked : Bool
  deriving Repr, DecidableEq

/-- Model of `DeduplicationManager.executeRequest` (src/unnamed/part_008, lines 46–126)
up to its first suspension point.  Everything modelled here — key generation,
the stats increments, the pending-table lookup, and the insertion of a new
`PendingRequest` — is synchronous in the source, so no other call can
interleave with it; settlement of the promise (which deletes the table entry)
is a separate later event and is deliberately not part of this step. -/
def executeRequest (keyGen : KeyGen) (st : State) (method url : String)
    (data : Option JVal) (params : Option (List (String × JVal))) :
    CallResult × State :=
  if st.enabled = false then
    (⟨st.nextId, true⟩, { st with nextId := st.nextId + 1 })
  else
    let key := keyGen method url data params
    let st1 := { st with totalRequests := st.totalRequests + 1 }
    match alistLookup st1.pending key with
    | some pid =>
        (⟨pid, false⟩,
         { st1 with deduplicatedRequests := st1.deduplicatedRequests + 1 })
    | none =>
        (⟨st1.nextId, true⟩,
         { st1 with
             pending := st1.pending ++ [(key, st1.nextId)]
             nextId := st1.nextId + 1
             activeRequests := st1.pending.length + 1 })

/-- The `promise.finally` cleanup of `executeRequest`: once the shared promise
settles, the table entry is removed. -/
def settle (st : State) (key : String) : State :=
  let pending := st.pending.filter (fun p => p.1 ≠ key)
  { st with pending := pending, activeRequests := pending.length }

/-- Runs `N` concurrent identical `executeRequest` calls, all issued before the
shared promise resolves (so no `settle` interleaves). -/
def runConcurrent (keyGen : KeyGen) (st : State) (method url : String)
    (data : Option JVal) (params : Option (List (String × JVal))) :
    Nat → List CallResult × State
  | 0 => ([], st)
  | n + 1 =>
      let (r, st1) := executeRequest keyGen st method url data params
      let (rs, st2) := runConcurrent keyGen st1 method url data params n
      (r :: rs, st2)

end Dedup

namespace Cache

open Js

/-- Model of `CacheManager.buildCacheKey` (src/unnamed/part_005, lines 205–222):
`METHOD|url|params:k1=v1&k2=v2|body:...` with the parameter keys sorted
(`Object.keys(params).sort()`), the params part present only for a non-empty
parameter object, and the body part present only for a truthy body (a string
body is used verbatim, any other body is `JSON.stringify`ed). -/
def buildCacheKey (url method : String) (params : Option (List (String × JVal)))
    (body : Option JVal) : String :=
  let parts := [jsToUpper method, url]
  let parts := match params with
    | some p =>
        if 0 < p.length then
          let sortedParams := String.intercalate "&"
            (((p.map Prod.fst).insertionSort (· ≤ ·)).map
              (fun k => k ++ "=" ++
                (match alistLookup p k with
                 | some v => templateVal v
                 | none => "undefined")))
          parts ++ ["params:" ++ sortedParams]
        else parts
    | none => parts
  let parts := match body with
    | some b =>
        if jsTruthy b then
          let bodyStr := match b with
            | .jstr s => s
            | .jnum n => toString n
          parts ++ ["body:" ++ bodyStr]
        else parts
    | none => parts
  String.intercalate "|" parts

/-- A `CacheEntry` (src/src/types/cache.ts): serialized payload, expiry and
creation timestamps, and a hit counter. -/
structure Entry where
  data : String
  expiresAt : Nat
  createdAt : Nat
  hits : Nat
  deriving Repr, DecidableEq

/-- The `CacheManager` configuration, with the pluggable serializers of
`CacheConfig` (defaults `JSON.stringify`/`JSON.parse`). -/
structure Config (α : Type) where
  enabled : Bool
  defaultTTL : Nat
  maxSize : Nat
  keyPref : String
  serialize : α → String
  deserialize : String → α

/-- Model of `CacheStats` (hits, misses, sets, deletes, size, hitRate). -/
structure Stats where
  hits : Nat
  misses : Nat
  sets : Nat
  deletes : Nat
  size : Nat
  hitRate : ℚ
  deriving Repr, DecidableEq

/-- State of a `CacheManager` backed by the in-memory `MemoryCacheAdapter`:
an insertion-ordered map plus the statistics. -/
structure MgrState where
  store : List (String × Entry)
  stats : Stats
  deriving Repr, DecidableEq

/-- Replace the value of an existing key, keeping its position — `Map.set` on
a key that is already present. -/
def replaceKey : List (String × Entry) → String → Entry → List (String × Entry)
  | [], _, _ => []
  | p :: rest, k, v => if p.1 = k then (k, v) :: rest else p :: replaceKey rest k v

/-- Model of `MemoryCacheAdapter.set` (src/unnamed/part_005, lines 270–280): when at
capacity and inserting a fresh key, the oldest (first-inserted) entry is
evicted (`if (firstKey)` skips an empty-string key, JS truthiness); then the
pair is stored. -/
def adapterSet (maxSize : Nat) (store : List (String × Entry)) (k : String)
    (v : Entry) : List (String × Entry) :=
  if (alistLookup store k).isSome then replaceKey store k v
  else
    let store1 :=
      if maxSize ≤ store.length then
        match store with
        | [] => []
        | (k0, e0) :: rest => if k0 ≠ "" then rest else (k0, e0) :: rest
      else store
    store1 ++ [(k, v)]

/-- Model of `MemoryCacheAdapter.delete` via `Map.delete`: removes the entry, reporting
whether it was present. -/
def adapterDelete (store : List (String × Entry)) (k : String) :
    List (String × Entry) × Bool :=
  (store.filter (fun p => decide (p.1 ≠ k)), (alistLookup store k).isSome)

/-- Model of `CacheManager.updateHitRate`. -/
def updateHitRate (s : Stats) : Stats :=
  let total := s.hits + s.misses
  { s with hitRate := if 0 < total then (s.hits : ℚ) / (total : ℚ) else 0 }

/-- Model of `CacheManager.delete` (src/unnamed/part_005, lines 95–111). -/
def deleteEntry {α : Type} (cfg : Config α) (st : MgrState) (key : String) :
    Bool × MgrState :=
  if cfg.enabled = false then (false, st)
  else
    let cacheKey := cfg.keyPref ++ key
    let (store1, deleted) := adapterDelete st.store cacheKey
    if deleted then
      (true, { store := store1,
               stats := { st.stats with deletes := st.stats.deletes + 1,
                                        size := store1.length } })
    else (false, st)

/-- Model of `CacheManager.get` (src/unnamed/part_005, lines 39–69): a missing entry is
a miss; an entry past its expiry is deleted and treated as a miss (lazy
expiry); otherwise the hit counter is incremented, the entry is written back,
and the deserialized payload is returned. -/
def get {α : Type} (cfg : Config α) (st : MgrState) (key : String) (now : Nat) :
    Option α × MgrState :=
  if cfg.enabled = false then (none, st)
  else
    let cacheKey := cfg.keyPref ++ key
    match alistLookup st.store cacheKey with
    | none =>
        (none, { st with stats :=
                  updateHitRate { st.stats with misses := st.stats.misses + 1 } })
    | some e =>
        if e.expiresAt < now then
          let (_, st1) := deleteEntry cfg st key
          (none, { st1 with stats :=
                    updateHitRate { st1.stats with misses := st1.stats.misses + 1 } })
        else
          let e1 := { e with hits := e.hits + 1 }
          let store1 := adapterSet cfg.maxSize st.store cacheKey e1
          (some (cfg.deserialize e.data),
           { store := store1,
             stats := updateHitRate { st.stats with hits := st.stats.hits + 1 } })

/-- Model of `CacheManager.set` (src/unnamed/part_005, lines 71–93): stores the
serialized payload with `expiresAt = now + ttl` (per-call TTL, else the
configured default). -/
def set {α : Type} (cfg : Config α) (st : MgrState) (key : String) (d : α)
    (ttl : Option Nat) (now : Nat) : MgrState :=
  if cfg.enabled = false then st
  else
    let cacheKey := cfg.keyPref ++ key
    let t := ttl.getD cfg.defaultTTL
    let e : Entry := { data := cfg.serialize d, expiresAt := now + t,
                       createdAt := now, hits := 0 }
    let store1 := adapterSet cfg.maxSize st.store cacheKey e
    { store := store1,
      stats := { st.stats with sets := st.stats.sets + 1, size := store1.length } }

/-- A sequence of reads of the same key at the given times. -/
def getMany {α : Type} (cfg : Config α) (st : MgrState) (key : String) :
    List Nat → List (Option α) × MgrState
  | [] => ([], st)
  | t :: ts =>
      let (r, st1) := get cfg st key t
      let (rs, st2) := getMany cfg st1 key ts
      (r :: rs, st2)

end Cache

namespace Retry

/-- Model of `RetryConfig` as resolved in the `RetryManager` constructor
(src/src/config/defaults.ts, lines 270–292); delays are exact rationals, with
`Math.random()` passed in explicitly where jitter is used. -/
structure Config where
  enabled : Bool
  maxAttempts : Nat
  backoffFactor : ℚ
  baseDelay : ℚ
  maxDelay : ℚ
  retryStatusCodes : List Nat
  jitter : Bool

/-- The constructor default `retryStatusCodes: [408, 429, 500, 502, 503, 504]`. -/
def defaultRetryStatusCodes : List Nat := [408, 429, 500, 502, 503, 504]

/-- The shape of an error as inspected by `defaultRetryCondition`:
`error.code`, `error.response?.status` and `error.status`. -/
structure ErrObj where
  code : Option String
  responseStatus : Option Nat
  status : Option Nat
  deriving Repr, DecidableEq

/-- JS truthiness of an optional number (`undefined` and `0` are falsy). -/
def natTruthy : Option Nat → Bool
  | none => false
  | some n => n ≠ 0

/-- JS truthiness of an optional string (`undefined` and `''` are falsy). -/
def strTruthy : Option String → Bool
  | none => false
  | some s => s ≠ ""

/-- JS `a || b` on optional numbers. -/
def jsOrNat (a b : Option Nat) : Option Nat :=
  if natTruthy a then a else b

/-- The custom `ErrorCode` values accepted by the last branch of
`defaultRetryCondition`. -/
def retryableErrorCodes : List String :=
  ["NETWORK_ERROR", "TIMEOUT_ERROR", "SERVICE_UNAVAILABLE", "SERVER_ERROR"]

/-- Model of `RetryManager.defaultRetryCondition` (src/src/config/defaults.ts, lines
374–400): connection-level codes retry; else an HTTP status (from the raw or
transformed error) retries iff it is in `retryStatusCodes`; else a custom
error code retries iff it is one of four `ErrorCode` values. -/
def defaultRetryCondition (retryStatusCodes : List Nat) (e : ErrObj) : Bool :=
  if e.code = some "ENOTFOUND" ∨ e.code = some "ECONNRESET" ∨
     e.code = some "ECONNREFUSED" ∨ e.code = some "ETIMEDOUT" then true
  else
    let statusCode := jsOrNat e.responseStatus e.status
    if natTruthy statusCode then decide (statusCode.getD 0 ∈ retryStatusCodes)
    else if strTruthy e.code then decide (e.code.getD "" ∈ retryableErrorCodes)
    else false

/-- Model of `RetryManager.addJitter` (src/src/config/defaults.ts, lines 367–372):
up to ±10% perturbation, `rand` standing for `Math.random() ∈ [0, 1]`. -/
def addJitter (delay : ℚ) (rand : ℚ) : ℚ :=
  let jitterRange := delay * (1 / 10)
  let jitter := (rand - 1 / 2) * 2 * jitterRange
  max 0 (delay + jitter)

/-- Model of `RetryManager.calculateDelay` (src/src/config/defaults.ts, lines 349–365):
a per-call `retryDelay` is used as a fixed delay (capped at `maxDelay`);
otherwise exponential backoff `baseDelay * backoffFactor^(attempt-1)`,
optionally jittered, capped at `maxDelay`. -/
def calculateDelay (cfg : Config) (retryDelay : Option ℚ) (attempt : Nat)
    (rand : ℚ) : ℚ :=
  match retryDelay with
  | some rd => min rd cfg.maxDelay
  | none =>
      let delay := cfg.baseDelay * cfg.backoffFactor ^ (attempt - 1)
      let delay := if cfg.jitter then addJitter delay rand else delay
      min delay cfg.maxDelay

/-- Result of `RetryManager.executeWithRetry`: success, the raw error of a
single un-wrapped `operation()` call (retries disabled), or a
`RetryExhaustedError` carrying the attempt count and the last underlying
error object. -/
inductive RunResult (ε ρ : Type) where
  | ok (v : ρ)
  | raw (e : ε)
  | exhausted (attempts : Nat) (lastError : Option ε)
  deriving Repr, DecidableEq

/-- The `for (let attempt = 1; attempt <= maxAttempts; attempt++)` loop of
`executeWithRetry` (src/src/config/defaults.ts, lines 310–344), with the
remaining iteration count as fuel, returning the outcome and the number of
`operation` invocations.  `op n` is the result of the `(n+1)`-th invocation. -/
def executeWithRetryGo {ε ρ : Type} (cond : ε → Bool) (op : Nat → Except ε ρ)
    (maxAttempts : Nat) :
    Nat → Nat → Nat → Option ε → RunResult ε ρ × Nat
  | _, 0, attemptCount, lastError => (.exhausted attemptCount lastError, 0)
  | attempt, fuel + 1, _, _ =>
      match op (attempt - 1) with
      | .ok v => (.ok v, 1)
      | .error e =>
          if attempt = maxAttempts ∨ cond e = false then
            (.exhausted attempt (some e), 1)
          else
            let r := executeWithRetryGo cond op maxAttempts (attempt + 1) fuel
              attempt (some e)
            (r.1, r.2 + 1)

/-- Model of `RetryManager.executeWithRetry` (src/src/config/defaults.ts, lines
294–347): when both the manager and the per-call options disable retries the
operation runs once and its error propagates unwrapped; otherwise the retry
loop runs and a failure surfaces as `RetryExhausted` with the attempt count
and last error. -/
def executeWithRetry {ε ρ : Type} (enabled optEnabled : Bool) (maxAttempts : Nat)
    (cond : ε → Bool) (op : Nat → Except ε ρ) : RunResult ε ρ × Nat :=
  if enabled = false ∧ optEnabled = false then
    (match op 0 with
     | .ok v => .ok v
     | .error e => .raw e, 1)
  else
    executeWithRetryGo cond op maxAttempts 1 maxAttempts 0 none

end Retry

namespace Auth

/-- The `ErrorCode` values occurring in the auth flow
(src/src/utils/helpers.ts `ErrorCode` enum). -/
inductive ECode where
  | authError
  | tokenExpired
  | refreshTokenExpired
  | configError
  deriving Repr, DecidableEq

/-- The token storage holding the access and refresh credentials
(`TokenStorageAdapter`). -/
structure TokStore where
  access : Option String
  refresh : Option String
  deriving Repr, DecidableEq

/-- Model of `AuthManager.clearTokens`: both stored credentials are removed. -/
def clearTokens (_t : TokStore) : TokStore :=
  { access := none, refresh := none }

/-- Concurrency-relevant state of an `AuthManager`: the `refreshPromise` slot
(the shared in-flight refresh, identified by a `Nat`), a fresh-identity
counter, and the number of times `performTokenRefresh` has been started —
each start issues at most one call to the refresh endpoint. -/
structure MgrState where
  enabled : Bool
  refreshSlot : Option Nat
  nextId : Nat
  refreshRuns : Nat
  deriving Repr, DecidableEq

/-- Model of `AuthManager.refreshToken` (src/src/auth/auth-manager.ts, lines 143–159)
up to its first suspension point: with a pending `refreshPromise` the same
promise is returned; otherwise `performTokenRefresh()` is started and its
promise stored — synchronously, before any await, so concurrent callers that
arrive before the promise settles all observe the stored slot.  (The
`finally` that clears the slot runs only when the promise settles.) -/
def refreshToken (st : MgrState) : Except ECode Nat × MgrState :=
  if st.enabled = false then (.error .configError, st)
  else
    match st.refreshSlot with
    | some p => (.ok p, st)
    | none =>
        (.ok st.nextId,
         { st with refreshSlot := some st.nextId, nextId := st.nextId + 1,
                   refreshRuns := st.refreshRuns + 1 })

/-- Runs `k` concurrent `refreshToken` calls, all issued before the shared refresh
promise settles. -/
def refreshConcurrent (st : MgrState) : Nat → List (Except ECode Nat) × MgrState
  | 0 => ([], st)
  | k + 1 =>
      let (r, st1) := refreshToken st
      let (rs, st2) := refreshConcurrent st1 k
      (r :: rs, st2)

/-- Model of `AuthManager.performTokenRefresh` (src/src/auth/auth-manager.ts, lines
161–197): no stored refresh credential fails immediately; otherwise the
refresh endpoint is consulted (`endpoint` is its outcome: a new access token
with an optional new refresh token, or a failure).  On endpoint success the
tokens are stored (keeping the old refresh token when none is returned); on
failure the stored tokens are cleared before the `AuthError` propagates. -/
def performTokenRefresh (tok : TokStore)
    (endpoint : Except Unit (String × Option String)) :
    Except ECode String × TokStore :=
  match tok.refresh with
  | none => (.error .refreshTokenExpired, tok)
  | some rt =>
      match endpoint with
      | .ok (newAccess, newRefresh) =>
          (.ok newAccess,
           { access := some newAccess, refresh := some (newRefresh.getD rt) })
      | .error _ => (.error .refreshTokenExpired, clearTokens tok)

/-- An error rejected through the response-interceptor chain: either the
(possibly transformed) transport error with its HTTP status, or an
`AuthError`. -/
inductive FlowErr where
  | axiosE (status : Option Nat)
  | authE (code : ECode)
  deriving Repr, DecidableEq

/-- Outcome of the 401-handling flow for one request: the settled result, the
token storage afterwards, how many times the original request was replayed,
whether a credential refresh was attempted, and the request's `_retry` flag
afterwards. -/
structure FlowResult (ρ : Type) where
  result : Except FlowErr ρ
  tok : TokStore
  replays : Nat
  refreshAttempted : Bool
  retryFlagAfter : Bool
  deriving Repr

/-- Model of `AuthInterceptors.handleUnauthorized` (src/src/interceptors/auth.ts,
lines 50–128) together with `performTokenRefreshAndRetry`:
a request already marked `_retry` is terminal (`clearTokens`, `AuthError`);
otherwise the request is marked `_retry = true`, the token refresh runs, and
on success the original request is replayed exactly once (`replay` is that
single send's outcome).  Any replay failure — in particular a second 401,
which the response interceptor rejects unchanged because `_retry` is now set —
is caught by `performTokenRefreshAndRetry` and surfaces as an `AuthError`;
`handleUnauthorized` then clears the stored tokens.  A failed refresh likewise
surfaces as an `AuthError` with tokens cleared. -/
def handleUnauthorized {ρ : Type} (enabled : Bool) (tok : TokStore)
    (retryFlag : Bool) (errStatus : Option Nat)
    (endpoint : Except Unit (String × Option String))
    (replay : Except (Option Nat) ρ) : FlowResult ρ :=
  if enabled = false then
    { result := .error (.axiosE errStatus), tok := tok, replays := 0,
      refreshAttempted := false, retryFlagAfter := retryFlag }
  else if retryFlag then
    { result := .error (.authE .tokenExpired), tok := clearTokens tok,
      replays := 0, refreshAttempted := false, retryFlagAfter := retryFlag }
  else
    match performTokenRefresh tok endpoint with
    | (.error _, tok1) =>
        { result := .error (.authE .refreshTokenExpired),
          tok := clearTokens tok1, replays := 0, refreshAttempted := true,
          retryFlagAfter := true }
    | (.ok _, tok1) =>
        match replay with
        | .ok resp =>
            { result := .ok resp, tok := tok1, replays := 1,
              refreshAttempted := true, retryFlagAfter := true }
        | .error _ =>
            { result := .error (.authE .refreshTokenExpired),
              tok := clearTokens tok1, replays := 1, refreshAttempted := true,
              retryFlagAfter := true }

/-- The `onRejected` handler of `createAuthResponseInterceptor`
(src/src/interceptors/auth.ts, lines 28–47): only a 401 on a request not yet
marked `_retry` enters `handleUnauthorized`; everything else is rejected
unchanged. -/
def authOnRejected {ρ : Type} (enabled : Bool) (tok : TokStore)
    (retryFlag : Bool) (errStatus : Option Nat)
    (endpoint : Except Unit (String × Option String))
    (replay : Except (Option Nat) ρ) : FlowResult ρ :=
  if errStatus = some 401 ∧ retryFlag = false then
    handleUnauthorized enabled tok retryFlag errStatus endpoint replay
  else
    { result := .error (.axiosE errStatus), tok := tok, replays := 0,
      refreshAttempted := false, retryFlagAfter := retryFlag }

end Auth

namespace Client

open Js

/-- The client-level error taxonomy relevant to `ApiClient.request`
(src/src/utils/helpers.ts error classes): `ValidationError`,
`ApiError`, `RetryExhaustedError` and `CacheError`. -/
inductive CErr where
  | validationError (message field : String)
  | apiError (message : String)
  | retryExhausted (attempts : Nat) (lastMessage : String)
  | cacheError (message : String)
  deriving Repr, DecidableEq

/-- The message of an error, as read by `error.message`. -/
def errMessage : CErr → String
  | .validationError m _ => m
  | .apiError m => m
  | .retryExhausted n m =>
      if n = 1 then "Request failed on first attempt: " ++ m
      else "Request failed after " ++ toString (n - 1) ++ " retry attempts: " ++ m
  | .cacheError m => m

/-- Model of `RequestValidator.validateUrl` (src/src/utils/validators.ts, lines
144–152). -/
def validateUrl (url : String) : Except CErr Unit :=
  if url = "" then
    .error (.validationError "URL is required and must be a string" "url")
  else if (jsTrim url).length = 0 then
    .error (.validationError "URL cannot be empty" "url")
  else .ok ()

/-- The valid HTTP methods of `RequestValidator.validateMethod`. -/
def validMethods : List String :=
  ["GET", "POST", "PUT", "PATCH", "DELETE", "HEAD", "OPTIONS"]

/-- Model of `RequestValidator.validateMethod` (src/src/utils/validators.ts, lines
154–165). -/
def validateMethod (method : String) : Except CErr Unit :=
  if jsToUpper method ∈ validMethods then .ok ()
  else .error (.validationError "Invalid HTTP method" "method")

/-- Model of `RequestValidator.validateHeaders`: header keys are strings and header
values strings or numbers; in this model headers are `String × JVal` pairs,
which always satisfy both checks. -/
def validateHeaders (_headers : Option (List (String × JVal))) :
    Except CErr Unit :=
  .ok ()

/-- The methods allowed to carry a body in `RequestValidator.validateData`. -/
def methodsWithBody : List String := ["POST", "PUT", "PATCH"]

/-- Model of `RequestValidator.validateData` (src/src/utils/validators.ts, lines
184–195): a defined body on a method outside POST/PUT/PATCH is rejected. -/
def validateData (data : Option JVal) (method : String) : Except CErr Unit :=
  if jsToUpper method ∉ methodsWithBody ∧ data ≠ none then
    .error (.validationError (jsToUpper method ++ " requests should not have a body") "data")
  else .ok ()

/-- The catch clause of `ApiClient.request` (src/src/client.ts, lines
236–249): `ApiError` and `RetryExhaustedError` propagate unchanged; any other
error is wrapped into a plain `ApiError` carrying its message. -/
def wrapRequestError (e : CErr) : CErr :=
  match e with
  | .apiError _ => e
  | .retryExhausted _ _ => e
  | other => .apiError (errMessage other)

/-- Orchestrator state observable through `ApiClient`: the deduplication
pending table — here mapping a key to the eventual outcome its shared promise
settles with — and the deduplication statistics; feature switches mirror the
component `enabled` flags. -/
structure CState (ρ : Type) where
  dedupEnabled : Bool
  pending : List (String × Except CErr ρ)
  totalRequests : Nat
  deduplicatedRequests : Nat
  cacheEnabled : Bool
  retryEnabled : Bool

/-- Number of transport invocations and cache lookups performed by one
`ApiClient.request` call. -/
structure Effects where
  transportCalls : Nat
  cacheLookups : Nat
  deriving Repr, DecidableEq

/-- Model of `ApiClient.tryGetFromCache` (src/src/client.ts, lines 252–284): skipped
for non-GET methods, per-call `skipCache`, or a disabled cache; a lookup
failure (`cacheLookup = .error _`) is logged and treated as a miss. -/
def tryGetFromCache {ρ : Type} (skipCache cacheEnabled : Bool) (method : String)
    (cacheLookup : Except String (Option ρ)) : Option ρ × Nat :=
  if skipCache = true ∨ cacheEnabled = false ∨ method ≠ "GET" then (none, 0)
  else
    match cacheLookup with
    | .error _ => (none, 1)
    | .ok none => (none, 1)
    | .ok (some r) => (some r, 1)

/-- The closure passed to `deduplicationManager.executeRequest` by
`ApiClient.request` (src/src/client.ts, lines 216–232) composed with
`ApiClient.executeWithRetry` (lines 286–313): probe the cache, and on a miss
run the transport, wrapped by the retry engine unless retries are skipped or
disabled.  `transport n` is the outcome of the `(n+1)`-th transport
invocation. -/
def requestClosure {ρ : Type} (st : CState ρ) (method : String)
    (skipCache skipRetry : Bool) (cacheLookup : Except String (Option ρ))
    (retryMax : Nat) (retryCond : CErr → Bool)
    (transport : Nat → Except CErr ρ) : Except CErr ρ × Effects :=
  let (cached, lookups) := tryGetFromCache skipCache st.cacheEnabled method cacheLookup
  match cached with
  | some r => (.ok r, { transportCalls := 0, cacheLookups := lookups })
  | none =>
      if skipRetry = true ∨ st.retryEnabled = false then
        (transport 0, { transportCalls := 1, cacheLookups := lookups })
      else
        match Retry.executeWithRetry true true retryMax retryCond transport with
        | (.ok v, n) => (.ok v, { transportCalls := n, cacheLookups := lookups })
        | (.raw e, n) => (.error e, { transportCalls := n, cacheLookups := lookups })
        | (.exhausted k last, n) =>
            (.error (.retryExhausted k (errMessage (last.getD (.apiError "")))),
             { transportCalls := n, cacheLookups := lookups })

/-- The `onFulfilled` handler of
`ResponseInterceptors.createCacheInterceptor` (src/unnamed/part_006, lines
54–82) with its `shouldCache` guard (lines 200–204): a successful GET
response is written to the cache (`trySet` is the possibly-failing
`cacheManager.set` against the pluggable backing store, returning the new
cache state); a write failure is logged and swallowed, and the response is
returned unchanged in every case. -/
def cacheInterceptorOnFulfilled {ρ σ : Type} (skipCache cacheEnabled : Bool)
    (method : String) (status : Nat) (resp : ρ) (cacheSt : σ)
    (trySet : σ → Except String σ) : ρ × σ :=
  if skipCache = false ∧ cacheEnabled = true ∧ jsToUpper method = "GET" ∧
     200 ≤ status ∧ status < 300 then
    match trySet cacheSt with
    | .ok st2 => (resp, st2)
    | .error _ => (resp, cacheSt)
  else (resp, cacheSt)

/-- Model of `ApiClient.request` (src/src/client.ts, lines 204–250): the four
validators run first, before the deduplication manager, the cache probe, or
any transport call; their failure is wrapped by the catch clause.  With
deduplication enabled a pending identical request is returned directly
(collapsed); otherwise the closure runs (its table entry is inserted before
the closure is awaited and removed when it settles, so the table is restored
afterwards). -/
def request {ρ : Type} (st : CState ρ) (method url : String) (data : Option JVal)
    (params headers : Option (List (String × JVal)))
    (skipCache skipRetry : Bool) (cacheLookup : Except String (Option ρ))
    (retryMax : Nat) (retryCond : CErr → Bool)
    (transport : Nat → Except CErr ρ) :
    Except CErr ρ × CState ρ × Effects :=
  match validateUrl url with
  | .error e => (.error (wrapRequestError e), st, ⟨0, 0⟩)
  | .ok _ =>
  match validateMethod method with
  | .error e => (.error (wrapRequestError e), st, ⟨0, 0⟩)
  | .ok _ =>
  match validateHeaders headers with
  | .error e => (.error (wrapRequestError e), st, ⟨0, 0⟩)
  | .ok _ =>
  match validateData data method with
  | .error e => (.error (wrapRequestError e), st, ⟨0, 0⟩)
  | .ok _ =>
  if st.dedupEnabled = false then
    let (r, eff) := requestClosure st method skipCache skipRetry cacheLookup
      retryMax retryCond transport
    (r, st, eff)
  else
    let key := Dedup.defaultKeyGenerator method url data params
    let st1 := { st with totalRequests := st.totalRequests + 1 }
    match alistLookup st1.pending key with
    | some res =>
        (res, { st1 with deduplicatedRequests := st1.deduplicatedRequests + 1 },
         ⟨0, 0⟩)
    | none =>
        let (r, eff) := requestClosure st1 method skipCache skipRetry cacheLookup
          retryMax retryCond transport
        (r, st1, eff)

end Client

/-! ### Helper lemmas -/

namespace Js

@[simp] theorem alistLookup_nil {α : Type} (k : String) :
    alistLookup ([] : List (String × α)) k = none := rfl

@[simp] theorem alistLookup_cons {α : Type} (p : String × α) (rest : List (String × α))
    (k : String) :
    alistLookup (p :: rest) k = if p.1 = k then some p.2 else alistLookup rest k := rfl

theorem alistLookup_append_of_none {α : Type} {l : List (String × α)} {k : String}
    (h : alistLookup l k = none) (l2 : List (String × α)) :
    alistLookup (l ++ l2) k = alistLookup l2 k := by
  induction l with
  | nil => simp
  | cons p rest ih =>
    simp only [alistLookup_cons] at h
    by_cases hk : p.1 = k
    · simp [hk] at h
    · simp only [if_neg hk] at h
      rw [List.cons_append, alistLookup_cons, if_neg hk]
      exact ih h

/-- Two association lists with the same key-value pairs in possibly different
insertion orders agree on every lookup, provided keys are not duplicated. -/
theorem alistLookup_perm {β : Type} {l1 l2 : List (String × β)}
    (h : l1.Perm l2) :
    (l1.map Prod.fst).Nodup → ∀ k, alistLookup l1 k = alistLookup l2 k := by
  induction h with
  | nil => intro _ k; rfl
  | cons x h ih =>
    intro hnd k
    simp only [List.map_cons, List.nodup_cons] at hnd
    simp only [alistLookup_cons]
    by_cases hk : x.1 = k
    · simp [hk]
    · simp [hk, ih hnd.2 k]
  | swap x y l =>
    intro hnd k
    simp only [List.map_cons, List.nodup_cons, List.mem_cons] at hnd
    have hxy : y.1 ≠ x.1 := fun hc => hnd.1 (Or.inl hc)
    simp only [alistLookup_cons]
    by_cases hy : y.1 = k
    · have hx : ¬x.1 = k := fun hc => hxy (hy.trans hc.symm)
      simp [hy, hx]
    · simp [hy]
  | trans h1 h2 ih1 ih2 =>
    intro hnd k
    have hnd2 := (List.Perm.nodup_iff (h1.map Prod.fst)).mp hnd
    rw [ih1 hnd k, ih2 hnd2 k]

end Js

namespace Dedup

open Js

theorem executeRequest_hit (keyGen : KeyGen) (st : State) (method url : String)
    (data : Option JVal) (params : Option (List (String × JVal))) (pid : Nat)
    (he : st.enabled = true)
    (hp : alistLookup st.pending (keyGen method url data params) = some pid) :
    executeRequest keyGen st method url data params =
      (⟨pid, false⟩,
       { st with totalRequests := st.totalRequests + 1,
                 deduplicatedRequests := st.deduplicatedRequests + 1 }) := by
  unfold executeRequest
  simp [he, hp]

theorem executeRequest_miss (keyGen : KeyGen) (st : State) (method url : String)
    (data : Option JVal) (params : Option (List (String × JVal)))
    (he : st.enabled = true)
    (hp : alistLookup st.pending (keyGen method url data params) = none) :
    executeRequest keyGen st method url data params =
      (⟨st.nextId, true⟩,
       { st with totalRequests := st.totalRequests + 1
                 pending := st.pending ++ [(keyGen method url data params, st.nextId)]
                 nextId := st.nextId + 1
                 activeRequests := st.pending.length + 1 }) := by
  unfold executeRequest
  simp [he, hp]

theorem runConcurrent_hit (keyGen : KeyGen) (method url : String)
    (data : Option JVal) (params : Option (List (String × JVal))) (pid : Nat)
    (N : Nat) :
    ∀ st : State, st.enabled = true →
      alistLookup st.pending (keyGen method url data params) = some pid →
      (runConcurrent keyGen st method url data params N).1 =
        List.replicate N ⟨pid, false⟩ := by
  induction N with
  | zero => intro st _ _; rfl
  | succ n ih =>
    intro st he hp
    have hstep := executeRequest_hit keyGen st method url data params pid he hp
    simp only [runConcurrent, hstep, List.replicate_succ, List.cons.injEq, true_and]
    exact ih _ he hp

end Dedup

namespace Cache

open Js

theorem alistLookup_tail_none {p : String × Entry} {rest : List (String × Entry)}
    {k : String} (h : alistLookup (p :: rest) k = none) :
    alistLookup rest k = none := by
  simp only [alistLookup_cons] at h
  by_cases hk : p.1 = k
  · simp [hk] at h
  · simpa [hk] using h

theorem alistLookup_replaceKey (store : List (String × Entry)) (k : String)
    (v : Entry) (h : (alistLookup store k).isSome = true) :
    alistLookup (replaceKey store k v) k = some v := by
  induction store with
  | nil => simp at h
  | cons p rest ih =>
    by_cases hk : p.1 = k
    · simp [replaceKey, hk]
    · simp only [alistLookup_cons, if_neg hk] at h
      simp only [replaceKey, if_neg hk, alistLookup_cons, if_neg hk]
      exact ih h

theorem alistLookup_adapterSet (maxSize : Nat) (store : List (String × Entry))
    (k : String) (v : Entry) :
    alistLookup (adapterSet maxSize store k v) k = some v := by
  unfold adapterSet
  by_cases h : (alistLookup store k).isSome = true
  · simp only [if_pos h]
    exact alistLookup_replaceKey store k v h
  · simp only [if_neg h]
    have hnone : alistLookup store k = none := by
      cases hl : alistLookup store k with
      | none => rfl
      | some e => rw [hl] at h; simp at h
    have hnone1 :
        alistLookup
          (if maxSize ≤ store.length then
            match store with
            | [] => []
            | (k0, e0) :: rest => if k0 ≠ "" then rest else (k0, e0) :: rest
          else store) k = none := by
      by_cases hm : maxSize ≤ store.length
      · rw [if_pos hm]
        cases store with
        | nil => simp
        | cons p rest =>
          obtain ⟨k0, e0⟩ := p
          show alistLookup (if k0 ≠ "" then rest else (k0, e0) :: rest) k = none
          by_cases h0 : k0 ≠ ""
          · rw [if_pos h0]
            exact alistLookup_tail_none hnone
          · rw [if_neg h0]
            exact hnone
      · rw [if_neg hm]
        exact hnone
    rw [alistLookup_append_of_none hnone1]
    simp

theorem alistLookup_filter_ne (store : List (String × Entry)) (k : String) :
    alistLookup (store.filter (fun p => decide (p.1 ≠ k))) k = none := by
  induction store with
  | nil => simp
  | cons p rest ih =>
    simp only [ne_eq, decide_not] at ih ⊢
    by_cases hk : p.1 = k
    · simp [List.filter_cons, hk, ih]
    · simp [List.filter_cons, hk, ih]

/-- While every read happens at or before the stored expiry time, reads of
the key keep returning the stored payload: the hit path only bumps the
entry's hit counter and writes the same payload back. -/
theorem getMany_before_expiry {α : Type} (cfg : Config α) (key : String) (d : α)
    (exp : Nat) (he : cfg.enabled = true)
    (hround : cfg.deserialize (cfg.serialize d) = d) :
    ∀ (ts : List Nat) (st : MgrState) (e : Entry),
      alistLookup st.store (cfg.keyPref ++ key) = some e →
      e.data = cfg.serialize d → e.expiresAt = exp →
      (∀ t ∈ ts, t ≤ exp) →
      (getMany cfg st key ts).1 = ts.map (fun _ => some d) := by
  intro ts
  induction ts with
  | nil => intro st e _ _ _ _; rfl
  | cons t ts ih =>
    intro st e hlook hdata hexp hall
    have hne : ¬(e.expiresAt < t) := by
      have := hall t (by simp)
      omega
    have hget : get cfg st key t =
        (some (cfg.deserialize e.data),
         { store := adapterSet cfg.maxSize st.store (cfg.keyPref ++ key)
             { e with hits := e.hits + 1 },
           stats := updateHitRate
             { st.stats with hits := st.stats.hits + 1 } }) := by
      unfold get
      simp [he, hlook, hne]
    have hlook2 : alistLookup
        (adapterSet cfg.maxSize st.store (cfg.keyPref ++ key)
          { e with hits := e.hits + 1 }) (cfg.keyPref ++ key) =
        some { e with hits := e.hits + 1 } :=
      alistLookup_adapterSet _ _ _ _
    have hrest := ih
      { store := adapterSet cfg.maxSize st.store (cfg.keyPref ++ key)
          { e with hits := e.hits + 1 },
        stats := updateHitRate { st.stats with hits := st.stats.hits + 1 } }
      { e with hits := e.hits + 1 } hlook2 hdata hexp
      (fun x hx => hall x (by simp [hx]))
    rw [hdata] at hget hrest
    simp only [getMany, hget, hrest, hround, List.map_cons]

end Cache

/-! ### Claim theorems -/

/-- Claim C1 — Single-flight deduplication: with deduplication enabled, (a) a call
to `DeduplicationManager.executeRequest` whose key already has an entry in the
pending-requests table returns that entry's promise without invoking the
supplied request executor; (b) for `N ≥ 1` concurrent identical requests
issued before any resolves, the executor runs exactly once, every caller
receives the same promise, and hence — for any assignment `outcome` of settled
results to promises — all `N` callers observe the same outcome (value or
error). -/
theorem c1_single_flight_deduplication (keyGen : Dedup.KeyGen) (st : Dedup.State)
    (method url : String) (data : Option Js.JVal)
    (params : Option (List (String × Js.JVal))) (N : Nat)
    (he : st.enabled = true) :
    (∀ pid, Js.alistLookup st.pending (keyGen method url data params) = some pid →
      (Dedup.executeRequest keyGen st method url data params).1 =
        ⟨pid, false⟩) ∧
    (Js.alistLookup st.pending (keyGen method url data params) = none → 1 ≤ N →
      let rs := (Dedup.runConcurrent keyGen st method url data params N).1
      ((rs.filter (fun r => r.executorInvoked)).length = 1 ∧
       rs.map (fun r => r.promise) = List.replicate N st.nextId ∧
       ∀ {α : Type} (outcome : Nat → α),
         rs.map (fun r => outcome r.promise) =
           List.replicate N (outcome st.nextId))) := by
  constructor
  · intro pid hp
    rw [Dedup.executeRequest_hit keyGen st method url data params pid he hp]
  · intro hmiss hN
    obtain ⟨n, rfl⟩ : ∃ n, N = n + 1 := ⟨N - 1, (Nat.succ_pred_eq_of_pos hN).symm⟩
    have hstep := Dedup.executeRequest_miss keyGen st method url data params he hmiss
    have hlook : Js.alistLookup
        (st.pending ++ [(keyGen method url data params, st.nextId)])
        (keyGen method url data params) = some st.nextId := by
      rw [Js.alistLookup_append_of_none hmiss]
      simp
    have hrest := Dedup.runConcurrent_hit keyGen method url data params st.nextId n
      { st with totalRequests := st.totalRequests + 1
                pending := st.pending ++ [(keyGen method url data params, st.nextId)]
                nextId := st.nextId + 1
                activeRequests := st.pending.length + 1 }
      he hlook
    intro rs
    have hrs : rs = ⟨st.nextId, true⟩ ::
        List.replicate n (⟨st.nextId, false⟩ : Dedup.CallResult) := by
      simp only [rs, Dedup.runConcurrent, hstep]
      rw [hrest]
    rw [hrs]
    refine ⟨?_, ?_, ?_⟩
    · simp [List.filter_replicate]
    · simp [List.map_replicate, List.replicate_succ]
    · intro α outcome
      simp [List.map_replicate, List.replicate_succ]

/-- Claim C5 counterexample: the claim says the default retry condition returns
true for *any* 5xx status, but 501 (Not Implemented) is a 5xx status outside
the default `retryStatusCodes` list `[408, 429, 500, 502, 503, 504]`, and the
condition returns false on an error carrying it. -/
theorem c5_counterexample :
    Retry.defaultRetryCondition Retry.defaultRetryStatusCodes
      { code := none, responseStatus := some 501, status := none } = false ∧
    500 ≤ 501 ∧ 501 < 600 := by
  decide

/-- Claim C5, amended — Default retry predicate: for every error carrying a
(nonzero) HTTP response status and no connection-level code, the default
retry condition returns true iff the status is in the default
`retryStatusCodes` list `[408, 429, 500, 502, 503, 504]` (not every 5xx);
it returns true for the connection-level codes ENOTFOUND, ECONNRESET,
ECONNREFUSED and ETIMEDOUT; and it returns false for every other 4xx
status. -/
theorem c5_default_retry_predicate (s : Nat) (hs : s ≠ 0) :
    (Retry.defaultRetryCondition Retry.defaultRetryStatusCodes
        { code := none, responseStatus := some s, status := none } = true ↔
      s ∈ Retry.defaultRetryStatusCodes) ∧
    (∀ c ∈ ["ENOTFOUND", "ECONNRESET", "ECONNREFUSED", "ETIMEDOUT"],
      ∀ rs rst : Option Nat,
        Retry.defaultRetryCondition Retry.defaultRetryStatusCodes
          { code := some c, responseStatus := rs, status := rst } = true) ∧
    (400 ≤ s → s < 500 → s ≠ 408 → s ≠ 429 →
      Retry.defaultRetryCondition Retry.defaultRetryStatusCodes
        { code := none, responseStatus := some s, status := none } = false) := by
  refine ⟨?_, ?_, ?_⟩
  · simp [Retry.defaultRetryCondition, Retry.jsOrNat, Retry.natTruthy, hs]
  · intro c hc rs rst
    simp only [Retry.defaultRetryCondition]
    fin_cases hc <;> simp
  · intro h1 h2 h3 h4
    simp [Retry.defaultRetryCondition, Retry.jsOrNat, Retry.natTruthy, hs,
      Retry.defaultRetryStatusCodes]
    omega

/-- Witness for C5 at status 429. -/
theorem c5_default_retry_predicate_witness :
    (429 : Nat) ≠ 0 ∧
    Retry.defaultRetryCondition Retry.defaultRetryStatusCodes
      { code := none, responseStatus := some 429, status := none } = true :=
  ⟨by decide, ((c5_default_retry_predicate 429 (by decide)).1).mpr (by decide)⟩

/-- Claim C6 — Backoff delay formula: with jitter disabled and no per-call
`retryDelay` override, the delay computed before the `(n+1)`-th attempt
(i.e. `calculateDelay n`, after the `n`-th failed attempt, `n ≥ 1`) equals
`min(maxDelay, baseDelay * backoffFactor^(n-1))`; with jitter enabled the
computed delay lies within ±10% of that value and never exceeds `maxDelay`
(`rand` is the `Math.random()` draw). -/
theorem c6_backoff_delay_formula (base factor maxD rand : ℚ) (n : Nat)
    (hb : 0 ≤ base) (hf : 0 ≤ factor) (hm : 0 ≤ maxD) (hn : 1 ≤ n)
    (hr0 : 0 ≤ rand) (hr1 : rand ≤ 1) :
    Retry.calculateDelay
        ⟨true, 3, factor, base, maxD, Retry.defaultRetryStatusCodes, false⟩
        none n rand = min maxD (base * factor ^ (n - 1)) ∧
    (9 : ℚ) / 10 * min maxD (base * factor ^ (n - 1)) ≤
      Retry.calculateDelay
        ⟨true, 3, factor, base, maxD, Retry.defaultRetryStatusCodes, true⟩
        none n rand ∧
    Retry.calculateDelay
        ⟨true, 3, factor, base, maxD, Retry.defaultRetryStatusCodes, true⟩
        none n rand ≤ (11 : ℚ) / 10 * min maxD (base * factor ^ (n - 1)) ∧
    Retry.calculateDelay
        ⟨true, 3, factor, base, maxD, Retry.defaultRetryStatusCodes, true⟩
        none n rand ≤ maxD := by
  have hd : 0 ≤ base * factor ^ (n - 1) :=
    mul_nonneg hb (pow_nonneg hf _)
  set d := base * factor ^ (n - 1) with hd_def
  have hcalc : Retry.calculateDelay
      ⟨true, 3, factor, base, maxD, Retry.defaultRetryStatusCodes, true⟩
      none n rand = min (Retry.addJitter d rand) maxD := by
    simp [Retry.calculateDelay]
  have hjl : (9 : ℚ) / 10 * d ≤ Retry.addJitter d rand := by
    refine le_trans ?_ (le_max_right 0 _)
    nlinarith [mul_nonneg hd hr0]
  have hju : Retry.addJitter d rand ≤ (11 : ℚ) / 10 * d := by
    refine max_le (by nlinarith) ?_
    nlinarith [mul_nonneg hd (sub_nonneg.mpr hr1)]
  refine ⟨?_, ?_, ?_, ?_⟩
  · simp [Retry.calculateDelay, min_comm]
  · rw [hcalc]
    rcases le_total maxD d with h | h
    · rw [min_eq_left h]
      exact le_min (by nlinarith) (by nlinarith)
    · rw [min_eq_right h]
      exact le_min (by nlinarith) (by nlinarith)
  · rw [hcalc]
    rcases le_total maxD d with h | h
    · rw [min_eq_left h]
      have h2 : min (Retry.addJitter d rand) maxD ≤ maxD := min_le_right _ _
      nlinarith
    · rw [min_eq_right h]
      have h2 : min (Retry.addJitter d rand) maxD ≤ Retry.addJitter d rand :=
        min_le_left _ _
      nlinarith
  · rw [hcalc]
    exact min_le_right _ _

/-- Witness for C6 with `baseDelay = 1000`, `backoffFactor = 2`,
`maxDelay = 30000`, before the third attempt (`n = 2`), `rand = 3/4`. -/
theorem c6_backoff_delay_formula_witness :
    Retry.calculateDelay
        ⟨true, 3, 2, 1000, 30000, Retry.defaultRetryStatusCodes, false⟩
        none 2 (3 / 4) = 2000 ∧
    (1800 : ℚ) ≤ Retry.calculateDelay
        ⟨true, 3, 2, 1000, 30000, Retry.defaultRetryStatusCodes, true⟩
        none 2 (3 / 4) ∧
    Retry.calculateDelay
        ⟨true, 3, 2, 1000, 30000, Retry.defaultRetryStatusCodes, true⟩
        none 2 (3 / 4) ≤ 30000 := by
  have h := c6_backoff_delay_formula 1000 2 30000 (3 / 4) 2
    (by norm_num) (by norm_num) (by norm_num) (by norm_num)
    (by norm_num) (by norm_num)
  have hmin : min (30000 : ℚ) (1000 * 2 ^ (2 - 1)) = 2000 := by norm_num
  refine ⟨by rw [h.1, hmin], le_trans ?_ h.2.1, h.2.2.2⟩
  rw [hmin]
  norm_num

/-- When every attempt fails with a retryable error, the retry loop performs
exactly one `operation` invocation per remaining attempt and terminates with
`RetryExhausted` carrying `maxAttempts` and the last error. -/
theorem executeWithRetryGo_all_retryable {ε ρ : Type} (cond : ε → Bool)
    (op : Nat → Except ε ρ) (maxAttempts : Nat) (eL : ε)
    (hlast : op (maxAttempts - 1) = .error eL)
    (hall : ∀ i, i < maxAttempts → ∃ e, op i = Except.error e ∧ cond e = true) :
    ∀ fuel attempt c l, attempt + fuel = maxAttempts + 1 → 1 ≤ attempt →
      attempt ≤ maxAttempts →
      Retry.executeWithRetryGo cond op maxAttempts attempt fuel c l =
        (.exhausted maxAttempts (some eL), fuel) := by
  intro fuel
  induction fuel with
  | zero => intro attempt c l hsum h1 h2; omega
  | succ f ih =>
    intro attempt c l hsum h1 h2
    obtain ⟨e, hop, hcond⟩ := hall (attempt - 1) (by omega)
    by_cases heq : attempt = maxAttempts
    · subst heq
      have hf : f = 0 := by omega
      subst hf
      have he : e = eL := by
        rw [hlast] at hop
        exact (Except.error.injEq _ _ ▸ hop).symm
      subst he
      simp [Retry.executeWithRetryGo, hop]
    · have hlt : attempt < maxAttempts := by omega
      have hrec := ih (attempt + 1) attempt (some e) (by omega) (by omega) (by omega)
      simp [Retry.executeWithRetryGo, hop, heq, hcond, hrec]

/-- Claim C4 — Retry attempt counts and terminal condition: with the retry engine
enabled (by config or per-call option) and `maxAttempts ≥ 1`,
`RetryManager.executeWithRetry` (a) invokes the operation exactly once when
the first error is non-retryable per the retry predicate, raising
`RetryExhausted` with attempt count 1 and that error (so the underlying error
object, with its status and data, is carried even when no retry occurred);
and (b) invokes the operation exactly `maxAttempts` times when every error is
retryable, raising `RetryExhausted` with attempt count `maxAttempts` and the
last underlying error. -/
theorem c4_retry_attempt_counts {ε ρ : Type} (enabled optEnabled : Bool)
    (maxAttempts : Nat) (cond : ε → Bool) (op : Nat → Except ε ρ)
    (hen : enabled = true ∨ optEnabled = true) (hmax : 1 ≤ maxAttempts) :
    (∀ e0, op 0 = .error e0 → cond e0 = false →
      Retry.executeWithRetry enabled optEnabled maxAttempts cond op =
        (.exhausted 1 (some e0), 1)) ∧
    ((∀ i, i < maxAttempts → ∃ e, op i = Except.error e ∧ cond e = true) →
      ∃ eL, op (maxAttempts - 1) = .error eL ∧
        Retry.executeWithRetry enabled optEnabled maxAttempts cond op =
          (.exhausted maxAttempts (some eL), maxAttempts)) := by
  have hguard : ¬(enabled = false ∧ optEnabled = false) := by
    rcases hen with h | h <;> simp [h]
  constructor
  · intro e0 hop hcond
    obtain ⟨m, rfl⟩ : ∃ m, maxAttempts = m + 1 := ⟨maxAttempts - 1, by omega⟩
    simp [Retry.executeWithRetry, hguard, Retry.executeWithRetryGo, hop, hcond]
  · intro hall
    obtain ⟨e, hop, _⟩ := hall (maxAttempts - 1) (by omega)
    refine ⟨e, hop, ?_⟩
    have hgo := executeWithRetryGo_all_retryable cond op maxAttempts e hop hall
      maxAttempts 1 0 none (by omega) (by omega) (by omega)
    simp [Retry.executeWithRetry, hguard, hgo]

/-- Witness for C4: a non-retryable first error (status 400 with the default
predicate shape modelled as a plain code) stops after one attempt; an
always-retryable error exhausts all 3 attempts. -/
theorem c4_retry_attempt_counts_witness :
    Retry.executeWithRetry true true 3 (fun e => decide (500 ≤ e))
        (fun _ => (Except.error 400 : Except Nat Nat)) =
      (.exhausted 1 (some 400), 1) ∧
    Retry.executeWithRetry true true 3 (fun e => decide (500 ≤ e))
        (fun _ => (Except.error 503 : Except Nat Nat)) =
      (.exhausted 3 (some 503), 3) := by
  constructor
  · exact (c4_retry_attempt_counts true true 3 (fun e => decide (500 ≤ e))
      (fun _ => (Except.error 400 : Except Nat Nat)) (Or.inl rfl) (by decide)).1
      400 rfl (by decide)
  · obtain ⟨eL, hop, hres⟩ := (c4_retry_attempt_counts true true 3
      (fun e => decide (500 ≤ e))
      (fun _ => (Except.error 503 : Except Nat Nat)) (Or.inl rfl) (by decide)).2
      (fun i _ => ⟨503, rfl, by decide⟩)
    have : eL = 503 := by
      have h2 : (503 : Nat) = eL := by simpa using hop
      exact h2.symm
    rw [this] at hres
    exact hres

/-- Concurrent `refreshToken` calls finding a pending refresh promise all
return that same promise and leave the manager state untouched. -/
theorem refreshConcurrent_pending (p : Nat) :
    ∀ (k : Nat) (st : Auth.MgrState), st.enabled = true →
      st.refreshSlot = some p →
      Auth.refreshConcurrent st k = (List.replicate k (.ok p), st) := by
  intro k
  induction k with
  | zero => intro st _ _; rfl
  | succ n ih =>
    intro st he hp
    have hstep : Auth.refreshToken st = (.ok p, st) := by
      simp [Auth.refreshToken, he, hp]
    simp only [Auth.refreshConcurrent, hstep, List.replicate_succ]
    rw [ih st he hp]

/-- Claim C3 — Credential refresh coordinator invariant: (a) a call to
`AuthManager.refreshToken` made while a refresh promise is pending returns
that same promise without starting a second `performTokenRefresh` (hence no
second call to the refresh endpoint); (b) `k ≥ 1` concurrent `refreshToken`
calls issued before the refresh settles all receive the same promise and
start exactly one `performTokenRefresh`; (c) when the refresh endpoint fails,
`performTokenRefresh` clears both stored tokens before the `AuthError`
propagates to the awaiting callers. -/
theorem c3_refresh_coordinator (st : Auth.MgrState) (k : Nat)
    (tok : Auth.TokStore) (rt : String) (he : st.enabled = true) :
    (∀ p, st.refreshSlot = some p → Auth.refreshToken st = (.ok p, st)) ∧
    (st.refreshSlot = none →
      (Auth.refreshConcurrent st k).1 =
        List.replicate k (.ok st.nextId) ∧
      (1 ≤ k → (Auth.refreshConcurrent st k).2.refreshRuns =
        st.refreshRuns + 1)) ∧
    (tok.refresh = some rt → ∀ u : Unit,
      Auth.performTokenRefresh tok (.error u) =
        (.error .refreshTokenExpired, { access := none, refresh := none })) := by
  refine ⟨?_, ?_, ?_⟩
  · intro p hp
    simp [Auth.refreshToken, he, hp]
  · intro hnone
    cases k with
    | zero => exact ⟨rfl, by intro h; omega⟩
    | succ n =>
      have hstep : Auth.refreshToken st =
          (.ok st.nextId,
           { st with refreshSlot := some st.nextId, nextId := st.nextId + 1,
                     refreshRuns := st.refreshRuns + 1 }) := by
        simp [Auth.refreshToken, he, hnone]
      have hrest := refreshConcurrent_pending st.nextId n
        { st with refreshSlot := some st.nextId, nextId := st.nextId + 1,
                  refreshRuns := st.refreshRuns + 1 } he rfl
      constructor
      · simp only [Auth.refreshConcurrent, hstep, hrest, List.replicate_succ]
      · intro _
        simp only [Auth.refreshConcurrent, hstep, hrest]
  · intro hrt u
    simp [Auth.performTokenRefresh, hrt, Auth.clearTokens]

/-- Witness for C3: three concurrent refresh calls from an idle manager, and
a failing endpoint clearing a populated token store. -/
theorem c3_refresh_coordinator_witness :
    (Auth.refreshConcurrent
        { enabled := true, refreshSlot := none, nextId := 7, refreshRuns := 0 }
        3).1 = List.replicate 3 (.ok 7) ∧
    (Auth.refreshConcurrent
        { enabled := true, refreshSlot := none, nextId := 7, refreshRuns := 0 }
        3).2.refreshRuns = 1 ∧
    Auth.performTokenRefresh { access := some "a", refresh := some "r" }
        (.error ()) =
      (.error .refreshTokenExpired, { access := none, refresh := none }) := by
  have h := c3_refresh_coordinator
    { enabled := true, refreshSlot := none, nextId := 7, refreshRuns := 0 } 3
    { access := some "a", refresh := some "r" } "r" rfl
  exact ⟨(h.2.1 rfl).1, (h.2.1 rfl).2 (by decide), h.2.2 rfl ()⟩

/-- Claim C2 — Replay-once protocol: for a request failing with a 401 that is not
yet marked `_retry`, with auth enabled and a stored refresh token, when the
credential refresh succeeds: (a) the request is marked as retried, the
refresh is performed, and the request is replayed exactly once — whatever the
replay's outcome; (b) a successful replay resolves with the replayed
response; (c) a failing replay (in particular a second 401) is terminal: the
stored credentials are cleared and an `AuthError` is raised; (d) a request
already marked `_retry` never re-enters the handler, so no third attempt
occurs. -/
theorem c2_replay_once {ρ : Type} (tok : Auth.TokStore) (rt na : String)
    (nr : Option String) (replay : Except (Option Nat) ρ)
    (hrt : tok.refresh = some rt) :
    ((Auth.authOnRejected true tok false (some 401) (.ok (na, nr)) replay).retryFlagAfter = true ∧
     (Auth.authOnRejected true tok false (some 401) (.ok (na, nr)) replay).refreshAttempted = true ∧
     (Auth.authOnRejected true tok false (some 401) (.ok (na, nr)) replay).replays = 1) ∧
    (∀ resp, replay = .ok resp →
      (Auth.authOnRejected true tok false (some 401) (.ok (na, nr)) replay).result = .ok resp) ∧
    (∀ s2, replay = .error s2 →
      (Auth.authOnRejected true tok false (some 401) (.ok (na, nr)) replay).result =
          .error (.authE .refreshTokenExpired) ∧
      (Auth.authOnRejected true tok false (some 401) (.ok (na, nr)) replay).tok =
          { access := none, refresh := none }) ∧
    (∀ (endpoint2 : Except Unit (String × Option String))
       (replay2 : Except (Option Nat) ρ),
      Auth.authOnRejected true tok true (some 401) endpoint2 replay2 =
        { result := .error (.axiosE (some 401)), tok := tok, replays := 0,
          refreshAttempted := false, retryFlagAfter := true }) := by
  have hrun : Auth.performTokenRefresh tok (.ok (na, nr)) =
      (.ok na, { access := some na, refresh := some (nr.getD rt) }) := by
    simp [Auth.performTokenRefresh, hrt]
  refine ⟨?_, ?_, ?_, ?_⟩
  · cases replay with
    | ok r =>
        simp [Auth.authOnRejected, Auth.handleUnauthorized, hrun]
    | error s =>
        simp [Auth.authOnRejected, Auth.handleUnauthorized, hrun]
  · intro resp hrep
    subst hrep
    simp [Auth.authOnRejected, Auth.handleUnauthorized, hrun]
  · intro s2 hrep
    subst hrep
    simp [Auth.authOnRejected, Auth.handleUnauthorized, hrun, Auth.clearTokens]
  · intro endpoint2 replay2
    simp [Auth.authOnRejected]

/-- Witness for C2: a token store holding a refresh token, a successful
refresh, and a replay that fails with a second 401. -/
theorem c2_replay_once_witness :
    (Auth.authOnRejected (ρ := Nat) true { access := some "a", refresh := some "r" }
        false (some 401) (.ok ("na", none)) (.error (some 401))).replays = 1 ∧
    (Auth.authOnRejected (ρ := Nat) true { access := some "a", refresh := some "r" }
        false (some 401) (.ok ("na", none)) (.error (some 401))).result =
      .error (.authE .refreshTokenExpired) ∧
    (Auth.authOnRejected (ρ := Nat) true { access := some "a", refresh := some "r" }
        false (some 401) (.ok ("na", none)) (.error (some 401))).tok =
      { access := none, refresh := none } := by
  have h := c2_replay_once (ρ := Nat) { access := some "a", refresh := some "r" }
    "r" "na" none (.error (some 401)) rfl
  exact ⟨h.1.2.2, (h.2.2.1 (some 401) rfl).1, (h.2.2.1 (some 401) rfl).2⟩

/-- Claim C10 — A defined body on a method other than POST/PUT/PATCH fails fast:
`RequestValidator.validateData` raises a `ValidationError`, and
`ApiClient.request` — whose validators run before the deduplication manager,
the cache probe and the transport — returns that failure (wrapped into a
plain `ApiError` by the request's catch clause, which rethrows only
`ApiError` and `RetryExhaustedError` unchanged) with the orchestrator state
untouched: the pending table and statistics are unchanged and no transport
call or cache lookup happens. -/
theorem c10_body_on_bodyless_method_fails_fast {ρ : Type} (st : Client.CState ρ)
    (method url : String) (d : Js.JVal)
    (params headers : Option (List (String × Js.JVal)))
    (skipCache skipRetry : Bool) (cacheLookup : Except String (Option ρ))
    (retryMax : Nat) (retryCond : Client.CErr → Bool)
    (transport : Nat → Except Client.CErr ρ)
    (hm : method ∈ ["GET", "DELETE", "HEAD", "OPTIONS"])
    (hvu : Client.validateUrl url = .ok ()) :
    Client.validateData (some d) method =
      .error (.validationError
        (Js.jsToUpper method ++ " requests should not have a body") "data") ∧
    Client.request st method url (some d) params headers skipCache skipRetry
        cacheLookup retryMax retryCond transport =
      (.error (.apiError (Js.jsToUpper method ++ " requests should not have a body")),
       st, ⟨0, 0⟩) := by
  fin_cases hm
  case _ =>
    have hup : Js.jsToUpper "GET" = "GET" := by decide
    have hvm : Client.validateMethod "GET" = .ok () := by rfl
    have hvd : Client.validateData (some d) "GET" =
        .error (.validationError "GET requests should not have a body" "data") := by
      have hmem : "GET" ∉ Client.methodsWithBody := by decide
      simp [Client.validateData, hup, hmem]
    refine ⟨by rw [hup]; exact hvd, ?_⟩
    rw [hup]
    simp [Client.request, hvu, hvm, Client.validateHeaders, hvd,
      Client.wrapRequestError, Client.errMessage]
  case _ =>
    have hup : Js.jsToUpper "DELETE" = "DELETE" := by decide
    have hvm : Client.validateMethod "DELETE" = .ok () := by rfl
    have hvd : Client.validateData (some d) "DELETE" =
        .error (.validationError "DELETE requests should not have a body" "data") := by
      have hmem : "DELETE" ∉ Client.methodsWithBody := by decide
      simp [Client.validateData, hup, hmem]
    refine ⟨by rw [hup]; exact hvd, ?_⟩
    rw [hup]
    simp [Client.request, hvu, hvm, Client.validateHeaders, hvd,
      Client.wrapRequestError, Client.errMessage]
  case _ =>
    have hup : Js.jsToUpper "HEAD" = "HEAD" := by decide
    have hvm : Client.validateMethod "HEAD" = .ok () := by rfl
    have hvd : Client.validateData (some d) "HEAD" =
        .error (.validationError "HEAD requests should not have a body" "data") := by
      have hmem : "HEAD" ∉ Client.methodsWithBody := by decide
      simp [Client.validateData, hup, hmem]
    refine ⟨by rw [hup]; exact hvd, ?_⟩
    rw [hup]
    simp [Client.request, hvu, hvm, Client.validateHeaders, hvd,
      Client.wrapRequestError, Client.errMessage]
  case _ =>
    have hup : Js.jsToUpper "OPTIONS" = "OPTIONS" := by decide
    have hvm : Client.validateMethod "OPTIONS" = .ok () := by rfl
    have hvd : Client.validateData (some d) "OPTIONS" =
        .error (.validationError "OPTIONS requests should not have a body" "data") := by
      have hmem : "OPTIONS" ∉ Client.methodsWithBody := by decide
      simp [Client.validateData, hup, hmem]
    refine ⟨by rw [hup]; exact hvd, ?_⟩
    rw [hup]
    simp [Client.request, hvu, hvm, Client.validateHeaders, hvd,
      Client.wrapRequestError, Client.errMessage]

/-- Witness for C10: a GET with a body against an idle client. -/
theorem c10_body_on_bodyless_method_fails_fast_witness :
    Client.request (ρ := Nat)
        { dedupEnabled := true, pending := [], totalRequests := 0,
          deduplicatedRequests := 0, cacheEnabled := true, retryEnabled := true }
        "GET" "/users" (some (.jnum 1)) none none false false (.ok none) 3
        (fun _ => false) (fun _ => .ok 0) =
      (.error (.apiError "GET requests should not have a body"),
       { dedupEnabled := true, pending := [], totalRequests := 0,
         deduplicatedRequests := 0, cacheEnabled := true, retryEnabled := true },
       ⟨0, 0⟩) := by
  have h := c10_body_on_bodyless_method_fails_fast (ρ := Nat)
    { dedupEnabled := true, pending := [], totalRequests := 0,
      deduplicatedRequests := 0, cacheEnabled := true, retryEnabled := true }
    "GET" "/users" (.jnum 1) none none false false (.ok none) 3
    (fun _ => false) (fun _ => .ok 0) (by decide) (by rfl)
  have hup : Js.jsToUpper "GET" = "GET" := by decide
  rw [hup] at h
  exact h.2

/-- Claim C9 — Cache failures never abort the primary request: (a) a request
whose cache lookup raises an error behaves exactly — same result, same state,
same transport calls — like the same request with a clean cache miss, so the
request proceeds to execution; (b) on the response path, the cache
interceptor returns the successful response unchanged whatever the write
does, and a failing write additionally leaves the cache state unchanged. -/
theorem c9_cache_failures_never_abort {ρ σ : Type} :
    (∀ (st : Client.CState ρ) (method url : String) (data : Option Js.JVal)
       (params headers : Option (List (String × Js.JVal)))
       (skipCache skipRetry : Bool) (m : String) (retryMax : Nat)
       (retryCond : Client.CErr → Bool) (transport : Nat → Except Client.CErr ρ),
      Client.request st method url data params headers skipCache skipRetry
          (.error m) retryMax retryCond transport =
        Client.request st method url data params headers skipCache skipRetry
          (.ok none) retryMax retryCond transport) ∧
    (∀ (skipCache cacheEnabled : Bool) (method : String) (status : Nat)
       (resp : ρ) (cacheSt : σ) (trySet : σ → Except String σ),
      (Client.cacheInterceptorOnFulfilled skipCache cacheEnabled method status
          resp cacheSt trySet).1 = resp ∧
      (∀ m, trySet cacheSt = .error m →
        Client.cacheInterceptorOnFulfilled skipCache cacheEnabled method status
            resp cacheSt trySet = (resp, cacheSt))) := by
  constructor
  · intro st method url data params headers skipCache skipRetry m retryMax
      retryCond transport
    have hl : ∀ sc ce me, Client.tryGetFromCache (ρ := ρ) sc ce me (.error m) =
        Client.tryGetFromCache sc ce me (.ok none) := by
      intro sc ce me
      unfold Client.tryGetFromCache
      by_cases h : sc = true ∨ ce = false ∨ me ≠ "GET" <;> simp [h]
    simp only [Client.request, Client.requestClosure, hl]
  · intro skipCache cacheEnabled method status resp cacheSt trySet
    constructor
    · unfold Client.cacheInterceptorOnFulfilled
      by_cases h : skipCache = false ∧ cacheEnabled = true ∧
          Js.jsToUpper method = "GET" ∧ 200 ≤ status ∧ status < 300
      · simp only [if_pos h]
        cases trySet cacheSt <;> rfl
      · simp [if_neg h]
    · intro m hm
      unfold Client.cacheInterceptorOnFulfilled
      by_cases h : skipCache = false ∧ cacheEnabled = true ∧
          Js.jsToUpper method = "GET" ∧ 200 ≤ status ∧ status < 300
      · simp [if_pos h, hm]
      · simp [if_neg h]

/-- Witness for C9's write-path clause at a failing backing store. -/
theorem c9_cache_failures_never_abort_witness :
    Client.cacheInterceptorOnFulfilled (ρ := Nat) (σ := Nat) false true "GET" 200
        7 0 (fun _ => .error "backing store down") = (7, 0) :=
  ((c9_cache_failures_never_abort (ρ := Nat) (σ := Nat)).2 false true "GET" 200
    7 0 (fun _ => .error "backing store down")).2 "backing store down" rfl

/-- Claim C8 — Cache TTL with lazy expiry: after `CacheManager.set` stores `d`
under a key with TTL `T` at time `t0`, (a) every read of that key at a time
`≤ t0 + T` (in particular any time strictly before `t0 + T`) returns the
stored data, however many reads precede it; (b) a read at any time after
`t0 + T` returns `null` (a miss) and removes the expired entry from the
backing store as a side effect of the read. -/
theorem c8_cache_ttl_lazy_expiry {α : Type} (cfg : Cache.Config α)
    (st : Cache.MgrState) (key : String) (d : α) (T t0 : Nat)
    (he : cfg.enabled = true)
    (hround : cfg.deserialize (cfg.serialize d) = d) :
    (∀ ts : List Nat, (∀ t ∈ ts, t ≤ t0 + T) →
      (Cache.getMany cfg (Cache.set cfg st key d (some T) t0) key ts).1 =
        ts.map (fun _ => some d)) ∧
    (∀ t, t0 + T < t →
      (Cache.get cfg (Cache.set cfg st key d (some T) t0) key t).1 = none ∧
      Js.alistLookup
        (Cache.get cfg (Cache.set cfg st key d (some T) t0) key t).2.store
        (cfg.keyPref ++ key) = none) := by
  have hstore : Js.alistLookup (Cache.set cfg st key d (some T) t0).store
      (cfg.keyPref ++ key) = some
      { data := cfg.serialize d, expiresAt := t0 + T, createdAt := t0,
        hits := 0 } := by
    simp only [Cache.set, he, Bool.true_eq_false, if_false, Option.getD_some]
    exact Cache.alistLookup_adapterSet _ _ _ _
  constructor
  · intro ts hts
    exact Cache.getMany_before_expiry cfg key d (t0 + T) he hround ts _ _
      hstore rfl rfl hts
  · intro t ht
    constructor
    · simp [Cache.get, Cache.deleteEntry, Cache.adapterDelete, he, hstore, ht]
    · simp [Cache.get, Cache.deleteEntry, Cache.adapterDelete, he, hstore, ht]
      simpa using Cache.alistLookup_filter_ne
        (Cache.set cfg st key d (some T) t0).store (cfg.keyPref ++ key)

/-- Witness for C8: a 30-unit TTL entry written at time 100, read twice
before expiry and once after. -/
theorem c8_cache_ttl_lazy_expiry_witness :
    (Cache.getMany
        { enabled := true, defaultTTL := 300000, maxSize := 1000,
          keyPref := "api_cache_", serialize := fun s => s,
          deserialize := fun s => s }
        (Cache.set
          { enabled := true, defaultTTL := 300000, maxSize := 1000,
            keyPref := "api_cache_", serialize := fun s => s,
            deserialize := fun s => s }
          { store := [], stats := ⟨0, 0, 0, 0, 0, 0⟩ }
          "GET|/users" "payload" (some 30) 100)
        "GET|/users" [110, 130]).1 = [some "payload", some "payload"] ∧
    (Cache.get
        { enabled := true, defaultTTL := 300000, maxSize := 1000,
          keyPref := "api_cache_", serialize := fun s => s,
          deserialize := fun s => s }
        (Cache.set
          { enabled := true, defaultTTL := 300000, maxSize := 1000,
            keyPref := "api_cache_", serialize := fun s => s,
            deserialize := fun s => s }
          { store := [], stats := ⟨0, 0, 0, 0, 0, 0⟩ }
          "GET|/users" "payload" (some 30) 100)
        "GET|/users" 131).1 = none := by
  have h := c8_cache_ttl_lazy_expiry
    { enabled := true, defaultTTL := 300000, maxSize := 1000,
      keyPref := "api_cache_", serialize := fun s => s,
      deserialize := fun s => s }
    { store := [], stats := ⟨0, 0, 0, 0, 0, 0⟩ }
    "GET|/users" "payload" 30 100 rfl rfl
  exact ⟨h.1 [110, 130] (by decide), (h.2 131 (by decide)).1⟩

/-- Claim C7 counterexample: the claim says *both* key-generation functions are
order-independent in the parameter map, but
`DeduplicationManager.defaultKeyGenerator` serializes `params` with plain
`JSON.stringify` (insertion order): the maps `{a:1, b:2}` and `{b:2, a:1}` —
permutations of the same key-value pairs — yield different deduplication
keys. -/
theorem c7_counterexample :
    ([(("a" : String), Js.JVal.jnum 1), ("b", Js.JVal.jnum 2)]).Perm
      [("b", Js.JVal.jnum 2), ("a", Js.JVal.jnum 1)] ∧
    Dedup.defaultKeyGenerator "GET" "/users" none
        (some [("a", .jnum 1), ("b", .jnum 2)]) ≠
      Dedup.defaultKeyGenerator "GET" "/users" none
        (some [("b", .jnum 2), ("a", .jnum 1)]) := by
  constructor
  · decide
  · decide

/-- Claim C7, amended — Fingerprint order-independence holds for the cache key
builder but not for the default deduplication key generator: both functions
are deterministic (they are pure functions of their arguments), and
`CacheManager.buildCacheKey` — which sorts parameter keys before serializing —
yields identical keys for two parameter maps containing the same key-value
pairs in different insertion orders (with no duplicate keys);
`DeduplicationManager.defaultKeyGenerator` serializes parameters in insertion
order, so reordered maps may yield different keys (see the counterexample). -/
theorem c7_buildCacheKey_order_independent (url method : String)
    (body : Option Js.JVal) (p1 p2 : List (String × Js.JVal))
    (hperm : p1.Perm p2) (hnd : (p1.map Prod.fst).Nodup) :
    Cache.buildCacheKey url method (some p1) body =
      Cache.buildCacheKey url method (some p2) body := by
  have hlen : p1.length = p2.length := hperm.length_eq
  have hkeys : (p1.map Prod.fst).Perm (p2.map Prod.fst) := hperm.map _
  have hsort : (p1.map Prod.fst).insertionSort (· ≤ ·) =
      (p2.map Prod.fst).insertionSort (· ≤ ·) := by
    apply List.eq_of_perm_of_sorted (r := fun a b : String => a ≤ b)
    · exact (List.perm_insertionSort _ _).trans
        (hkeys.trans (List.perm_insertionSort _ _).symm)
    · exact List.sorted_insertionSort _ _
    · exact List.sorted_insertionSort _ _
  have hlookup : ∀ k, Js.alistLookup p1 k = Js.alistLookup p2 k :=
    Js.alistLookup_perm hperm hnd
  have hs : String.intercalate "&"
      (((p1.map Prod.fst).insertionSort (· ≤ ·)).map
        (fun k => k ++ "=" ++
          (match Js.alistLookup p1 k with
           | some v => Js.templateVal v
           | none => "undefined"))) =
    String.intercalate "&"
      (((p2.map Prod.fst).insertionSort (· ≤ ·)).map
        (fun k => k ++ "=" ++
          (match Js.alistLookup p2 k with
           | some v => Js.templateVal v
           | none => "undefined"))) := by
    rw [hsort]
    congr 1
    apply List.map_congr_left
    intro k _
    rw [hlookup k]
  simp only [Cache.buildCacheKey]
  rw [hlen, hs]

/-- Witness for C7's amended theorem on the reordered maps of the
counterexample. -/
theorem c7_buildCacheKey_order_independent_witness :
    Cache.buildCacheKey "/users" "GET"
        (some [("a", .jnum 1), ("b", .jnum 2)]) none =
      Cache.buildCacheKey "/users" "GET"
        (some [("b", .jnum 2), ("a", .jnum 1)]) none :=
  c7_buildCacheKey_order_independent "/users" "GET" none
    [("a", .jnum 1), ("b", .jnum 2)] [("b", .jnum 2), ("a", .jnum 1)]
    (by decide) (by decide)

/-- Witness for C1 at a concrete state: one entry already pending and three
concurrent identical requests. -/
theorem c1_single_flight_deduplication_witness :
    (let st : Dedup.State :=
      { enabled := true, pending := [], nextId := 5, totalRequests := 0,
        deduplicatedRequests := 0, activeRequests := 0 }
     let rs := (Dedup.runConcurrent Dedup.defaultKeyGenerator st "get" "/users/1"
        none none 3).1
     (rs.filter (fun r => r.executorInvoked)).length = 1 ∧
     rs.map (fun r => r.promise) = List.replicate 3 5) := by
  have h := c1_single_flight_deduplication Dedup.defaultKeyGenerator
    { enabled := true, pending := [], nextId := 5, totalRequests := 0,
      deduplicatedRequests := 0, activeRequests := 0 }
    "get" "/users/1" none none 3 rfl
  have h2 := h.2 rfl (by decide)
  exact ⟨h2.1, h2.2.1⟩
